import Mathlib

/-!
Shallow embedding of the graft leader-election log store: the `DefaultLog`
persistent store (default_log.go), the node-side state-reading logic (log.go),
and the history-aware `TestLog` used by the test suite.

Bytes are modelled as lists of naturals; Go strings are immutable byte strings
and are modelled the same way.  The filesystem is a map from paths to optional
file contents.  Failures are explicit `Option GoError` results.
-/

/-- Go strings are immutable byte strings; modelled as lists of naturals. -/
abbrev GoStr := List Nat

/-- The distinguishable error values surfaced by the log layer.
`logNoState` models `LogNoStateErr`, `logCorrupt` models `LogCorruptErr`,
`pathError` models an operating-system path error (file missing or the
invalid empty path), and `jsonError` models a `json.Unmarshal` failure. -/
inductive GoError where
  | pathError
  | logNoState
  | logCorrupt
  | jsonError
deriving DecidableEq, Repr

/-- The relevant operating-system state: the contents of each file, by path.
`none` means no file exists at that path. -/
abbrev FS := GoStr → Option (List Nat)

/-- Models `ioutil.ReadFile`: reading the invalid empty path or a missing file
fails (`none`); otherwise the file contents are returned. -/
def readFile (fs : FS) (p : GoStr) : Option (List Nat) :=
  if p = [] then none else fs p

/-- Models `ioutil.WriteFile`: writing to the invalid empty path fails and
leaves the filesystem unchanged; otherwise the file at `p` is created or
replaced with `content`. -/
def writeFile (fs : FS) (p : GoStr) (content : List Nat) : FS × Option GoError :=
  if p = [] then (fs, some .pathError)
  else ((fun q => if q = p then some content else fs q), none)

/-- Models `os.Remove`: removing the invalid empty path or a missing file
fails and leaves the filesystem unchanged; otherwise the file is deleted. -/
def osRemove (fs : FS) (p : GoStr) : FS × Option GoError :=
  if p = [] then (fs, some .pathError)
  else
    match fs p with
    | none => (fs, some .pathError)
    | some _ => ((fun q => if q = p then none else fs q), none)

/-- The 20-byte SHA-1 digest of the empty input. -/
def sha1EmptyDigest : List Nat :=
  [218, 57, 163, 238, 94, 107, 75, 13, 50, 85,
   191, 239, 149, 96, 24, 144, 175, 216, 7, 9]

/-- Models the Go expression `sha1.New().Sum(buf)` exactly as the source uses
it: `Sum` appends the digest of the data written to the hash so far (here:
nothing) to its argument, so the result is `buf` followed by the 20-byte
digest of the empty input. -/
def sha1NewSum (buf : List Nat) : List Nat := buf ++ sha1EmptyDigest

/-- Mirrors `type persistentState struct` of default_log.go: the payload
persisted by the default log. -/
structure persistentState where
  CurrentTerm : Nat
  VotedFor : GoStr
deriving DecidableEq, Repr

/-- Mirrors `type envelope struct` of default_log.go: the framed value
written to disk, an integrity digest `SHA` and the payload `Data`. -/
structure envelope where
  SHA : List Nat
  Data : List Nat
deriving DecidableEq, Repr

/-! JSON codec model.

`encoding/json` marshals `persistentState` as the object
`{"CurrentTerm":<decimal>,"VotedFor":"<quoted string>"}` and `envelope` as
`{"SHA":"<text>","Data":"<text>"}` (byte-slice fields render as quoted text;
base64 in Go).  The model keeps this framing byte for byte and abstracts only
the in-quote text encoding: bytes are emitted verbatim with the quote and
backslash bytes escaped by a backslash, which preserves the injectivity and
round-trip properties the source relies on.  `json.Marshal` cannot fail on
these two types, so the model's marshalling is total and the marshalling
error returns in the source are unreachable. -/

/-- The digit test used when parsing the decimal number in the payload. -/
def isDigitByte (c : Nat) : Bool := decide (48 ≤ c ∧ c ≤ 57)

/-- Fuel-driven recursion computing the decimal digits of a natural number;
any fuel above the number itself is sufficient. -/
def natDigitsAux : Nat → Nat → List Nat
  | 0, _ => []
  | fuel + 1, n =>
      if n < 10 then [48 + n]
      else natDigitsAux fuel (n / 10) ++ [48 + n % 10]

/-- The decimal digits (as ASCII bytes, most significant first) of a natural
number, as `json.Marshal` renders an unsigned integer. -/
def natDigits (n : Nat) : List Nat := natDigitsAux (n + 1) n

/-- The value of a big-endian list of ASCII decimal digits. -/
def digitsVal (ds : List Nat) : Nat :=
  ds.foldl (fun a c => a * 10 + (c - 48)) 0

/-- Quoted-text encoding of a byte string: the quote byte (34) and the
backslash byte (92) are escaped by a preceding backslash, everything else is
emitted verbatim. -/
def escapeBytes : List Nat → List Nat
  | [] => []
  | c :: rest =>
      if c = 34 ∨ c = 92 then 92 :: c :: escapeBytes rest
      else c :: escapeBytes rest

/-- Consumes a quoted-text body up to its unescaped closing quote, undoing
`escapeBytes`; returns the decoded bytes and the remainder after the quote. -/
def scanString : List Nat → Option (List Nat × List Nat)
  | [] => none
  | [c] => if c = 34 then some ([], []) else none
  | c :: d :: rest2 =>
      if c = 92 then (scanString rest2).map (fun p => (d :: p.1, p.2))
      else if c = 34 then some ([], d :: rest2)
      else (scanString (d :: rest2)).map (fun p => (c :: p.1, p.2))

/-- Strips an expected prefix, returning the remainder, or `none` when the
input does not start with the prefix. -/
def stripPre : List Nat → List Nat → Option (List Nat)
  | [], l => some l
  | _ :: _, [] => none
  | p :: ps, c :: cs => if c = p then stripPre ps cs else none

/-- ASCII bytes of the opening frame of the payload object: `{"CurrentTerm":`. -/
def psFrame1 : List Nat :=
  [123, 34, 67, 117, 114, 114, 101, 110, 116, 84, 101, 114, 109, 34, 58]

/-- ASCII bytes of the middle frame of the payload object: `,"VotedFor":"`. -/
def psFrame2 : List Nat :=
  [44, 34, 86, 111, 116, 101, 100, 70, 111, 114, 34, 58, 34]

/-- ASCII bytes of the closing frame of the payload object: `"}`. -/
def psFrame3 : List Nat := [34, 125]

/-- Models `json.Marshal` of a `persistentState`. -/
def marshalPS (ps : persistentState) : List Nat :=
  psFrame1 ++ natDigits ps.CurrentTerm ++ psFrame2 ++ escapeBytes ps.VotedFor ++ psFrame3

/-- Models `json.Unmarshal` of a `persistentState`: the inverse of
`marshalPS`, failing on any other input. -/
def unmarshalPS (buf : List Nat) : Option persistentState :=
  (stripPre psFrame1 buf).bind fun r1 =>
    if r1.takeWhile isDigitByte = [] then none
    else
      (stripPre psFrame2 (r1.dropWhile isDigitByte)).bind fun r2 =>
        (scanString r2).bind fun p =>
          if p.2 = [125] then some ⟨digitsVal (r1.takeWhile isDigitByte), p.1⟩
          else none

/-- ASCII bytes of the opening frame of the envelope object: `{"SHA":"`. -/
def envFrame1 : List Nat := [123, 34, 83, 72, 65, 34, 58, 34]

/-- ASCII bytes of the middle frame of the envelope object after the quote
closing the SHA field: `,"Data":"`. -/
def envFrame2tl : List Nat := [44, 34, 68, 97, 116, 97, 34, 58, 34]

/-- Models `json.Marshal` of an `envelope`: the SHA text, then the middle
frame (whose first byte, the quote, closes the SHA field), then the Data
text and the closing `"}`. -/
def marshalEnvelope (env : envelope) : List Nat :=
  envFrame1 ++ escapeBytes env.SHA ++ 34 :: envFrame2tl ++ escapeBytes env.Data ++ [34, 125]

/-- Models `json.Unmarshal` of an `envelope`: the inverse of
`marshalEnvelope`, failing on any other input. -/
def unmarshalEnvelope (buf : List Nat) : Option envelope :=
  (stripPre envFrame1 buf).bind fun r1 =>
    (scanString r1).bind fun p1 =>
      (stripPre envFrame2tl p1.2).bind fun r3 =>
        (scanString r3).bind fun p2 =>
          if p2.2 = [125] then some ⟨p1.1, p2.1⟩ else none

/-- Mirrors `type DefaultLog struct` of default_log.go: it holds only the
backing file's path. -/
structure DefaultLog where
  path : GoStr

/-- Mirrors `NewDefaultLog` of default_log.go. -/
def NewDefaultLog (path : GoStr) : DefaultLog := ⟨path⟩

/-- Mirrors `DefaultLog.Close`: `err := os.Remove(l.path); l.path = "";
return err`. -/
def DefaultLog.Close (l : DefaultLog) (fs : FS) : DefaultLog × FS × Option GoError :=
  let r := osRemove fs l.path
  (⟨[]⟩, r.1, r.2)

/-- The five results of `Log.LatestEntry`:
`(term, votedFor, lastIndex, logInfo, err)`. -/
structure LatestResult where
  term : Nat
  votedFor : GoStr
  lastIndex : Nat
  logInfo : Option (List Nat)
  err : Option GoError
deriving DecidableEq, Repr

/-- Mirrors `DefaultLog.LatestEntry` of default_log.go: read the backing
file (read failure propagates), signal `LogNoStateErr` on an empty file,
unmarshal the envelope, recompute `sha1.New().Sum(env.Data)` and signal
`LogCorruptErr` on mismatch with the stored `env.SHA`, then unmarshal the
payload and return `(term, votedFor, 0, nil, nil)`. -/
def DefaultLog.LatestEntry (l : DefaultLog) (fs : FS) : LatestResult :=
  match readFile fs l.path with
  | none => ⟨0, [], 0, none, some .pathError⟩
  | some buf =>
      if buf.length ≤ 0 then ⟨0, [], 0, none, some .logNoState⟩
      else
        match unmarshalEnvelope buf with
        | none => ⟨0, [], 0, none, some .jsonError⟩
        | some env =>
            if sha1NewSum env.Data ≠ env.SHA then ⟨0, [], 0, none, some .logCorrupt⟩
            else
              match unmarshalPS env.Data with
              | none => ⟨0, [], 0, none, some .jsonError⟩
              | some ps => ⟨ps.CurrentTerm, ps.VotedFor, 0, none, none⟩

/-- Mirrors `DefaultLog.AppendEntry` of default_log.go: marshal the
`persistentState`, wrap it in an envelope whose SHA is
`sha1.New().Sum(buf)`, marshal the envelope, and write it to the backing
file with `ioutil.WriteFile`.  The `index` and `entry` arguments are
ignored, exactly as in the source. -/
def DefaultLog.AppendEntry (l : DefaultLog) (fs : FS) (term : Nat) (votedFor : GoStr)
    (index : Nat) (entry : Option (List Nat)) : FS × Option GoError :=
  let ps : persistentState := { CurrentTerm := term, VotedFor := votedFor }
  let logPath := l.path
  let buf := marshalPS ps
  let env : envelope := { SHA := sha1NewSum buf, Data := buf }
  let toWrite := marshalEnvelope env
  writeFile fs logPath toWrite

/-- Mirrors `DefaultLog.LogUpToDate` of default_log.go: the default log has
no history, so the comparison unconditionally returns `true`. -/
def DefaultLog.LogUpToDate (l : DefaultLog) (index : Nat) (info : Option (List Nat))
    (candidateIndex : Nat) (candidateInfo : Option (List Nat)) : Bool :=
  true

/-- Mirrors `type TestLog struct` of the test suite (the mutex and the
`testing.T` handle carry no model-relevant state and are omitted). -/
structure TestLog where
  Term : Nat
  VotedFor : GoStr
  LastIndex : Nat
  LastEntry : Option (List Nat)
  Closed : Bool
deriving DecidableEq, Repr

/-- Mirrors `NewTestLog` of the test suite. -/
def NewTestLog (lastIndex : Nat) (lastEntry : Option (List Nat)) : TestLog :=
  { Term := 0, VotedFor := [], LastIndex := lastIndex, LastEntry := lastEntry, Closed := false }

/-- Mirrors `TestLog.Close` of the test suite. -/
def TestLog.Close (l : TestLog) : TestLog × Option GoError :=
  ({ l with Closed := true }, none)

/-- Mirrors `TestLog.LatestEntry` of the test suite. -/
def TestLog.LatestEntry (l : TestLog) : LatestResult :=
  ⟨l.Term, l.VotedFor, l.LastIndex, l.LastEntry, none⟩

/-- Mirrors `TestLog.AppendEntry` of the test suite: store term and voted
for, ignore index and entry, return nil. -/
def TestLog.AppendEntry (l : TestLog) (term : Nat) (votedFor : GoStr)
    (index : Nat) (entry : Option (List Nat)) : TestLog × Option GoError :=
  ({ l with Term := term, VotedFor := votedFor }, none)

/-- Mirrors `TestLog.LogUpToDate` of the test suite: equal indexes are up to
date (the info-bytes comparison path is commented out in the source);
otherwise the candidate is up to date exactly when its index is larger. -/
def TestLog.LogUpToDate (l : TestLog) (index : Nat) (info : Option (List Nat))
    (candidateIndex : Nat) (candidateInfo : Option (List Nat)) : Bool :=
  if index = candidateIndex then true
  else decide (index < candidateIndex)

/-- The node fields that `readState` touches (log.go).  The remaining node
state is irrelevant to the claims about `readState`. -/
structure Node where
  term : Nat
  vote : GoStr
  lastIndex : Nat
  logInfo : Option (List Nat)
deriving DecidableEq, Repr

/-- Modelled from the spec: `setTerm` (graft.go, not among the given
sources) stores the node's current term; the spec's data model lists `term`
as a plain node field. -/
def Node.setTerm (n : Node) (t : Nat) : Node := { n with term := t }

/-- Modelled from the spec: `setVote` (graft.go, not among the given
sources) stores the node's vote; the spec's data model lists `vote` as a
plain node field. -/
def Node.setVote (n : Node) (v : GoStr) : Node := { n with vote := v }

/-- Modelled from the spec: `SetLastIndex` (graft.go, not among the given
sources) stores the node's last log index. -/
def Node.SetLastIndex (n : Node) (i : Nat) : Node := { n with lastIndex := i }

/-- Modelled from the spec: `SetLogInfo` (graft.go, not among the given
sources) stores the node's last log info bytes. -/
def Node.SetLogInfo (n : Node) (info : Option (List Nat)) : Node :=
  { n with logInfo := info }

/-- Mirrors `Node.readState` of log.go, parameterised by the result of the
log's `LatestEntry` call (the log is a pluggable interface): any error
other than `LogNoStateErr` is returned with the node untouched; otherwise
the node's state is updated from the log and nil is returned. -/
def Node.readState (n : Node) (latest : LatestResult) : Node × Option GoError :=
  if latest.err ≠ none ∧ latest.err ≠ some .logNoState then (n, latest.err)
  else
    ((((n.setTerm latest.term).setVote latest.votedFor).SetLastIndex
        latest.lastIndex).SetLogInfo latest.logInfo, none)

/-- The empty filesystem: no file exists at any path. -/
def fsNone : FS := fun _ => none

/-- A filesystem holding one nonempty, non-envelope file at path `[108]`
(the single byte of the letter l). -/
def c7fs : FS := fun q => if q = [108] then some [1] else none

/-- A filesystem holding one empty file at path `[108]`: the state of a
fresh store whose backing file was created empty. -/
def c2wfs : FS := fun q => if q = [108] then some [] else none

/-- A filesystem holding, at path `[108]`, a marshalled envelope whose
stored digest `[7]` does not match the recomputed digest of its payload
`[1]`. -/
def c3wfs : FS := fun q => if q = [108] then some (marshalEnvelope ⟨[7], [1]⟩) else none

/-! Helper lemmas: the codec round-trips, exactly the properties of
`encoding/json` and the digest framing that the source relies on. -/

/-- Any fuel strictly above the number computes the same digit list. -/
theorem natDigitsAux_congr :
    ∀ (f1 f2 n : Nat), n < f1 → n < f2 → natDigitsAux f1 n = natDigitsAux f2 n := by
  intro f1
  induction f1 with
  | zero => intro f2 n h1 _; exact absurd h1 (Nat.not_lt_zero n)
  | succ s ih =>
      intro f2 n h1 h2
      cases f2 with
      | zero => exact absurd h2 (Nat.not_lt_zero n)
      | succ t =>
          simp only [natDigitsAux]
          by_cases hn : n < 10
          · simp [hn]
          · have hd : n / 10 < n := Nat.div_lt_self (by omega) (by norm_num)
            have h1' : n / 10 < s := Nat.lt_of_lt_of_le hd (Nat.lt_succ_iff.mp h1)
            have h2' : n / 10 < t := Nat.lt_of_lt_of_le hd (Nat.lt_succ_iff.mp h2)
            simp [hn, ih t (n / 10) h1' h2']

/-- Recurrence for `natDigits`. -/
theorem natDigits_eq (n : Nat) :
    natDigits n = if n < 10 then [48 + n] else natDigits (n / 10) ++ [48 + n % 10] := by
  by_cases hn : n < 10
  · simp [natDigits, natDigitsAux, hn]
  · have hd : n / 10 < n := Nat.div_lt_self (by omega) (by norm_num)
    rw [if_neg hn]
    have h1 : natDigits n = natDigitsAux n (n / 10) ++ [48 + n % 10] := by
      rw [show natDigits n =
        if n < 10 then [48 + n] else natDigitsAux n (n / 10) ++ [48 + n % 10] from rfl]
      rw [if_neg hn]
    rw [h1]
    exact congrArg (· ++ [48 + n % 10])
      (natDigitsAux_congr n (n / 10 + 1) (n / 10) hd (Nat.lt_succ_self _))

/-- A number always has at least one digit. -/
theorem natDigits_ne_nil (n : Nat) : natDigits n ≠ [] := by
  rw [natDigits_eq]
  by_cases hn : n < 10 <;> simp [hn]

/-- Every byte of a rendered number is an ASCII decimal digit. -/
theorem isDigitByte_natDigits (n : Nat) : ∀ c ∈ natDigits n, isDigitByte c = true := by
  induction n using Nat.strong_induction_on with
  | _ n ih =>
      rw [natDigits_eq]
      by_cases hn : n < 10
      · simp only [hn, if_true, List.mem_singleton]
        intro c hc
        subst hc
        simp [isDigitByte]
        omega
      · have hd : n / 10 < n := Nat.div_lt_self (by omega) (by norm_num)
        simp only [hn, if_false, List.mem_append, List.mem_singleton]
        intro c hc
        rcases hc with hc | hc
        · exact ih (n / 10) hd c hc
        · subst hc
          simp [isDigitByte]
          omega

/-- Parsing the rendered digits of `n` recovers `n`. -/
theorem digitsVal_natDigits (n : Nat) : digitsVal (natDigits n) = n := by
  induction n using Nat.strong_induction_on with
  | _ n ih =>
      rw [natDigits_eq]
      by_cases hn : n < 10
      · simp [hn, digitsVal, List.foldl]
      · have hd : n / 10 < n := Nat.div_lt_self (by omega) (by norm_num)
        have hrec := ih (n / 10) hd
        simp only [hn, if_false, digitsVal, List.foldl_append, List.foldl] at hrec ⊢
        rw [hrec]
        omega

/-- Stripping a prefix off itself followed by anything yields the remainder. -/
theorem stripPre_append (p r : List Nat) : stripPre p (p ++ r) = some r := by
  induction p with
  | nil => rfl
  | cons a ps ih => simp [stripPre, ih]

/-- Scanning the escaped text followed by a closing quote recovers the text
and the remainder after the quote. -/
theorem scanString_escape (s r : List Nat) :
    scanString (escapeBytes s ++ 34 :: r) = some (s, r) := by
  induction s with
  | nil =>
      cases r with
      | nil => rfl
      | cons a u => rfl
  | cons c t ih =>
      by_cases h : c = 34 ∨ c = 92
      · have hne : escapeBytes t ++ 34 :: r ≠ [] := by
          cases escapeBytes t <;> simp
        rw [show escapeBytes (c :: t) = 92 :: c :: escapeBytes t from by
          simp [escapeBytes, h]]
        cases hel : escapeBytes t ++ 34 :: r with
        | nil => exact absurd hel hne
        | cons a u =>
            rw [List.cons_append, List.cons_append, hel]
            rw [scanString, if_pos rfl, ← hel, ih]
            rfl
      · have h1 : ¬c = 92 := fun hc => h (Or.inr hc)
        have h2 : ¬c = 34 := fun hc => h (Or.inl hc)
        rw [show escapeBytes (c :: t) = c :: escapeBytes t from by
          simp [escapeBytes, h]]
        cases hel : escapeBytes t ++ 34 :: r with
        | nil => cases escapeBytes t <;> simp at hel
        | cons a u =>
            rw [List.cons_append, hel]
            rw [scanString, if_neg h1, if_neg h2, ← hel, ih]
            rfl

/-- `takeWhile` stops exactly at the first failing byte. -/
theorem takeWhile_append_all {p : Nat → Bool} (xs : List Nat) (y : Nat) (r : List Nat)
    (hall : ∀ c ∈ xs, p c = true) (hy : p y = false) :
    (xs ++ y :: r).takeWhile p = xs := by
  induction xs with
  | nil => simp [List.takeWhile_cons, hy]
  | cons a t ih =>
      have ha : p a = true := hall a (by simp)
      simp [List.takeWhile_cons, ha, ih (fun c hc => hall c (by simp [hc]))]

/-- `dropWhile` drops exactly up to the first failing byte. -/
theorem dropWhile_append_all {p : Nat → Bool} (xs : List Nat) (y : Nat) (r : List Nat)
    (hall : ∀ c ∈ xs, p c = true) (hy : p y = false) :
    (xs ++ y :: r).dropWhile p = y :: r := by
  induction xs with
  | nil => simp [List.dropWhile_cons, hy]
  | cons a t ih =>
      have ha : p a = true := hall a (by simp)
      simp [List.dropWhile_cons, ha, ih (fun c hc => hall c (by simp [hc]))]

/-- Round-trip of the payload codec: unmarshalling a marshalled
`persistentState` recovers it. -/
theorem unmarshalPS_marshalPS (ps : persistentState) :
    unmarshalPS (marshalPS ps) = some ps := by
  obtain ⟨t, v⟩ := ps
  have hassoc : marshalPS ⟨t, v⟩ =
      psFrame1 ++ (natDigits t ++ (psFrame2 ++ (escapeBytes v ++ psFrame3))) := by
    simp [marshalPS, List.append_assoc]
  have hmid : psFrame2 ++ (escapeBytes v ++ psFrame3) =
      44 :: ([34, 86, 111, 116, 101, 100, 70, 111, 114, 34, 58, 34] ++
        (escapeBytes v ++ psFrame3)) := by
    simp [psFrame2]
  have htake : (natDigits t ++ (psFrame2 ++ (escapeBytes v ++ psFrame3))).takeWhile
      isDigitByte = natDigits t := by
    rw [hmid]
    exact takeWhile_append_all _ _ _ (isDigitByte_natDigits t) (by decide)
  have hdrop : (natDigits t ++ (psFrame2 ++ (escapeBytes v ++ psFrame3))).dropWhile
      isDigitByte = psFrame2 ++ (escapeBytes v ++ psFrame3) := by
    conv_lhs => rw [hmid]
    rw [dropWhile_append_all _ _ _ (isDigitByte_natDigits t) (by decide)]
    exact hmid.symm
  have hscan : scanString (escapeBytes v ++ psFrame3) = some (v, [125]) := by
    rw [show psFrame3 = 34 :: [125] from rfl, scanString_escape]
  rw [hassoc, unmarshalPS, stripPre_append, Option.some_bind, htake, hdrop]
  rw [if_neg (natDigits_ne_nil t)]
  rw [stripPre_append, Option.some_bind, hscan, Option.some_bind]
  rw [if_pos rfl, digitsVal_natDigits]

/-- Round-trip of the envelope codec: unmarshalling a marshalled `envelope`
recovers it. -/
theorem unmarshalEnvelope_marshalEnvelope (env : envelope) :
    unmarshalEnvelope (marshalEnvelope env) = some env := by
  obtain ⟨sha, dat⟩ := env
  have hassoc : marshalEnvelope ⟨sha, dat⟩ =
      envFrame1 ++ (escapeBytes sha ++ 34 ::
        (envFrame2tl ++ (escapeBytes dat ++ 34 :: [125]))) := by
    simp [marshalEnvelope, List.append_assoc]
  rw [hassoc]
  simp [unmarshalEnvelope, stripPre_append, scanString_escape]

/-- A marshalled envelope is never the empty file. -/
theorem marshalEnvelope_length_pos (env : envelope) :
    ¬(marshalEnvelope env).length ≤ 0 := by
  simp [marshalEnvelope, envFrame1]

/-- Reading back a freshly written file returns its contents. -/
theorem readFile_writeFile (fs : FS) (p : GoStr) (c : List Nat) (hp : p ≠ []) :
    readFile (writeFile fs p c).1 p = some c := by
  simp [readFile, writeFile, hp]

/-! Claim theorems. -/

/-- C1, counterexample: on the code, `AppendEntry(t,v,_,_); Close; reopen;
LatestEntry` does not yield `(t, v, 0, nil, nil)`.  `Close` deletes the
backing file, so at term 1 and votedFor `[97]` the final `LatestEntry`
returns the underlying read error, not a success. -/
theorem c1_counterexample :
    (DefaultLog.AppendEntry (NewDefaultLog [108]) fsNone 1 [97] 0 none).2 = none ∧
    (DefaultLog.Close (NewDefaultLog [108])
        (DefaultLog.AppendEntry (NewDefaultLog [108]) fsNone 1 [97] 0 none).1).2.2 = none ∧
    (DefaultLog.LatestEntry (NewDefaultLog [108])
        (DefaultLog.Close (NewDefaultLog [108])
          (DefaultLog.AppendEntry (NewDefaultLog [108]) fsNone 1 [97] 0 none).1).2.1).err =
      some .pathError := by
  decide

/-- C1, amended: for every term `t` and votedFor `v` (and any index and
entry arguments), after `AppendEntry(t,v,_,_)` on a valid path succeeds,
reopening a `DefaultLog` on the same path and calling `LatestEntry` yields
term `t`, votedFor `v`, lastIndex 0, nil log info, and no error — without
an intervening `Close`, which deletes the backing file. -/
theorem c1_persist_reload (fs : FS) (p : GoStr) (t : Nat) (v : GoStr) (i : Nat)
    (e : Option (List Nat)) (hp : p ≠ []) :
    (DefaultLog.AppendEntry (NewDefaultLog p) fs t v i e).2 = none ∧
    DefaultLog.LatestEntry (NewDefaultLog p)
        (DefaultLog.AppendEntry (NewDefaultLog p) fs t v i e).1 =
      ⟨t, v, 0, none, none⟩ := by
  constructor
  · simp [DefaultLog.AppendEntry, NewDefaultLog, writeFile, hp]
  · have hread : readFile (DefaultLog.AppendEntry (NewDefaultLog p) fs t v i e).1 p =
        some (marshalEnvelope ⟨sha1NewSum (marshalPS ⟨t, v⟩), marshalPS ⟨t, v⟩⟩) :=
      readFile_writeFile fs p _ hp
    simp only [NewDefaultLog] at hread ⊢
    simp only [DefaultLog.LatestEntry, hread]
    rw [if_neg (marshalEnvelope_length_pos _)]
    simp only [unmarshalEnvelope_marshalEnvelope]
    rw [if_neg (not_not_intro rfl)]
    simp only [unmarshalPS_marshalPS]

/-- C1, witness for the amended theorem at term 2, votedFor `[98]`,
path `[108]`. -/
theorem c1_witness :
    ([108] : GoStr) ≠ [] ∧
    (DefaultLog.AppendEntry (NewDefaultLog [108]) fsNone 2 [98] 7 (some [1])).2 = none ∧
    DefaultLog.LatestEntry (NewDefaultLog [108])
        (DefaultLog.AppendEntry (NewDefaultLog [108]) fsNone 2 [98] 7 (some [1])).1 =
      ⟨2, [98], 0, none, none⟩ :=
  ⟨by decide,
    (c1_persist_reload fsNone [108] 2 [98] 7 (some [1]) (by decide)).1,
    (c1_persist_reload fsNone [108] 2 [98] 7 (some [1]) (by decide)).2⟩

/-- C2, counterexample: on a path with no backing file, `LatestEntry`
returns the underlying read error, not `LogNoStateErr`. -/
theorem c2_counterexample :
    (DefaultLog.LatestEntry (NewDefaultLog [108]) fsNone).err = some .pathError ∧
    (DefaultLog.LatestEntry (NewDefaultLog [108]) fsNone).err ≠ some .logNoState := by
  decide

/-- C2, amended: a fresh store whose backing file exists but is empty (as a
just-created temp file is) yields `LogNoStateErr` from `LatestEntry`; a
path with no backing file yields the read error instead. -/
theorem c2_fresh_empty_file (fs : FS) (p : GoStr) (hp : p ≠ []) (hf : fs p = some []) :
    DefaultLog.LatestEntry (NewDefaultLog p) fs = ⟨0, [], 0, none, some .logNoState⟩ := by
  simp only [DefaultLog.LatestEntry, NewDefaultLog, readFile, if_neg hp, hf]
  rfl

/-- C2, witness for the amended theorem: an empty file at path `[108]`. -/
theorem c2_witness :
    ([108] : GoStr) ≠ [] ∧ c2wfs [108] = some [] ∧
    DefaultLog.LatestEntry (NewDefaultLog [108]) c2wfs =
      ⟨0, [], 0, none, some .logNoState⟩ :=
  ⟨by decide, by decide, c2_fresh_empty_file c2wfs [108] (by decide) (by decide)⟩

/-- C3: for every stored envelope, `LatestEntry` returns `LogCorruptErr`
exactly when the digest recomputed over the payload on read — the source's
`sha1.New().Sum(env.Data)` — differs from the stored digest; on a match no
`Corrupt` error is returned. -/
theorem c3_corrupt_iff (fs : FS) (p : GoStr) (env : envelope) (hp : p ≠ [])
    (hf : fs p = some (marshalEnvelope env)) :
    ((DefaultLog.LatestEntry (NewDefaultLog p) fs).err = some .logCorrupt ↔
      sha1NewSum env.Data ≠ env.SHA) := by
  simp only [DefaultLog.LatestEntry, NewDefaultLog, readFile, if_neg hp, hf]
  rw [if_neg (marshalEnvelope_length_pos env)]
  simp only [unmarshalEnvelope_marshalEnvelope]
  by_cases hsha : sha1NewSum env.Data = env.SHA
  · rw [if_neg (not_not_intro hsha)]
    cases hps : unmarshalPS env.Data with
    | none => simp [hsha]
    | some ps => simp [hsha]
  · rw [if_pos hsha]
    simp [hsha]

/-- C3, witness: a stored envelope whose payload `[1]` does not hash to the
stored digest `[7]`, read back as `LogCorruptErr`. -/
theorem c3_witness :
    ([108] : GoStr) ≠ [] ∧
    c3wfs [108] = some (marshalEnvelope ⟨[7], [1]⟩) ∧
    ((DefaultLog.LatestEntry (NewDefaultLog [108]) c3wfs).err = some .logCorrupt ↔
      sha1NewSum [1] ≠ [7]) :=
  ⟨by decide, rfl, c3_corrupt_iff c3wfs [108] ⟨[7], [1]⟩ (by decide) rfl⟩

/-- C4: the default log's `LogUpToDate` returns `true` for every input. -/
theorem c4_default_logUpToDate_true (l : DefaultLog) (index : Nat)
    (info : Option (List Nat)) (candidateIndex : Nat) (candidateInfo : Option (List Nat)) :
    DefaultLog.LogUpToDate l index info candidateIndex candidateInfo = true := rfl

/-- C5: the test log's `LogUpToDate` returns `true` exactly when the
candidate's index is at least the local index, ignoring the info bytes. -/
theorem c5_testLog_logUpToDate_iff (l : TestLog) (index : Nat)
    (info : Option (List Nat)) (candidateIndex : Nat) (candidateInfo : Option (List Nat)) :
    TestLog.LogUpToDate l index info candidateIndex candidateInfo = true ↔
      index ≤ candidateIndex := by
  unfold TestLog.LogUpToDate
  by_cases h : index = candidateIndex
  · simp [h]
  · simp only [if_neg h, decide_eq_true_eq]
    omega

/-- C6: when the log's `LatestEntry` yields `LogNoStateErr`, `readState`
returns nil, treating the store as fresh rather than propagating the
error. -/
theorem c6_readState_swallows_noState (n : Node) (t : Nat) (v : GoStr) (i : Nat)
    (info : Option (List Nat)) :
    (Node.readState n ⟨t, v, i, info, some .logNoState⟩).2 = none := by
  simp [Node.readState]

/-- C7, counterexample: `DefaultLog.Close` is not result-idempotent: with a
backing file present the first `Close` returns nil, but the second returns
an error, because the path was cleared and `os.Remove` fails on it. -/
theorem c7_counterexample :
    (DefaultLog.Close (NewDefaultLog [108]) c7fs).2.2 = none ∧
    (DefaultLog.Close (DefaultLog.Close (NewDefaultLog [108]) c7fs).1
        (DefaultLog.Close (NewDefaultLog [108]) c7fs).2.1).2.2 = some .pathError := by
  decide

/-- C7, amended: `Close` is idempotent in its effect — a second `Close`
leaves the log value and the filesystem unchanged — but it returns a path
error (from `os.Remove` on the cleared empty path) rather than the first
call's result. -/
theorem c7_close_second_call (l : DefaultLog) (fs : FS) :
    DefaultLog.Close (DefaultLog.Close l fs).1 (DefaultLog.Close l fs).2.1 =
      ((DefaultLog.Close l fs).1, (DefaultLog.Close l fs).2.1, some .pathError) := rfl

/-- C8: `DefaultLog.AppendEntry` ignores its index and entry arguments:
two calls differing only there produce identical filesystem contents and
identical results. -/
theorem c8_appendEntry_ignores_index_entry (l : DefaultLog) (fs : FS) (t : Nat)
    (v : GoStr) (i1 i2 : Nat) (e1 e2 : Option (List Nat)) :
    DefaultLog.AppendEntry l fs t v i1 e1 = DefaultLog.AppendEntry l fs t v i2 e2 := rfl

/-- C9: `readState` is atomic on failure: any `LatestEntry` error other
than `LogNoStateErr` is returned as is, with the node's term, vote,
lastIndex and logInfo fields unchanged. -/
theorem c9_readState_error_frame (n : Node) (latest : LatestResult)
    (h1 : latest.err ≠ none) (h2 : latest.err ≠ some .logNoState) :
    Node.readState n latest = (n, latest.err) := by
  rw [Node.readState, if_pos ⟨h1, h2⟩]

/-- C9, witness at the `LogCorruptErr` error and a concrete node. -/
theorem c9_witness :
    (some GoError.logCorrupt ≠ (none : Option GoError)) ∧
    (some GoError.logCorrupt ≠ some GoError.logNoState) ∧
    Node.readState ⟨5, [97], 3, some [2]⟩ ⟨0, [], 0, none, some .logCorrupt⟩ =
      (⟨5, [97], 3, some [2]⟩, some .logCorrupt) :=
  ⟨by decide, by decide,
    c9_readState_error_frame ⟨5, [97], 3, some [2]⟩ ⟨0, [], 0, none, some .logCorrupt⟩
      (by decide) (by decide)⟩

/-- C10: `TestLog.AppendEntry` sets only the `Term` and `VotedFor` fields,
leaves `LastIndex`, `LastEntry` and `Closed` unchanged, and returns nil. -/
theorem c10_testLog_appendEntry_frame (l : TestLog) (t : Nat) (v : GoStr) (i : Nat)
    (e : Option (List Nat)) :
    (TestLog.AppendEntry l t v i e).1.Term = t ∧
    (TestLog.AppendEntry l t v i e).1.VotedFor = v ∧
    (TestLog.AppendEntry l t v i e).1.LastIndex = l.LastIndex ∧
    (TestLog.AppendEntry l t v i e).1.LastEntry = l.LastEntry ∧
    (TestLog.AppendEntry l t v i e).1.Closed = l.Closed ∧
    (TestLog.AppendEntry l t v i e).2 = none :=
  ⟨rfl, rfl, rfl, rfl, rfl, rfl⟩
